import Mathlib

/-
Verification of the real_time_multithreaded simulation engine (src/script.js).

The engine is a sequential, discrete-step simulator of OS threading:
Thread / Semaphore / Monitor / CPUCore / Scheduler / SimulationEngine.
JS object references are modelled by thread ids (Nat) together with a
single thread store owned by the engine; every queue and every core slot
holds ids.  JS numbers that can go negative (semaphore values, remaining
time, turnaround) are Int; counters are Nat.  The event log and the UI
layer are not modelled (the log is append-only presentation data that no
engine decision reads).  `SimulationEngine.tick` returns Option: `none`
models the one place the source can throw a TypeError (dereferencing the
null result of `releaseThread` in the preemption branch, script.js:336).
-/

set_option linter.unusedVariables false

/-- Thread lifecycle states, script.js strings NEW/READY/RUNNING/BLOCKED/TERMINATED. -/
inductive TState
  | new
  | ready
  | running
  | blocked
  | terminated
deriving DecidableEq, Repr

/-- Instruction records {type, resource} handled by executeInstruction (script.js:364-467). -/
inductive Instruction
  | compute
  | wait (resource : String)
  | signal (resource : String)
  | enterMonitor (resource : String)
  | exitMonitor (resource : String)
  | monitorWait (resource : String)
  | monitorSignal (resource : String)
deriving DecidableEq, Repr

/-- class Thread (script.js:1-50).  The static nextId allocator lives on the engine. -/
structure Thread where
  id : Nat
  name : String
  priority : Int
  state : TState
  instructions : List Instruction
  currentInstruction : Nat
  arrivalTime : Nat
  burstTime : Nat
  remainingTime : Int
  waitTime : Nat
  turnaroundTime : Int
  completionTime : Nat
  timeInCurrentState : Nat
  quantum : Nat
  kernelThreadId : Option Nat
deriving DecidableEq, Repr

/-- Thread constructor (script.js:4-20); `name || T$id` falsiness modelled by the empty string. -/
def mkThread (id : Nat) (name : String) (priority : Int)
    (instructions : List Instruction) : Thread :=
  { id := id
    name := if name = "" then "T" ++ toString id else name
    priority := priority
    state := TState.new
    instructions := instructions
    currentInstruction := 0
    arrivalTime := 0
    burstTime := instructions.length
    remainingTime := (instructions.length : Int)
    waitTime := 0
    turnaroundTime := 0
    completionTime := 0
    timeInCurrentState := 0
    quantum := 0
    kernelThreadId := none }

/-- Thread.execute (script.js:22-33): done when the cursor reached the end, otherwise
advance the cursor, decrement remainingTime, increment the quantum counter and
return the instruction that was at the cursor. -/
def Thread.execute (t : Thread) : Thread × Option Instruction :=
  if h : t.currentInstruction < t.instructions.length then
    ({ t with currentInstruction := t.currentInstruction + 1
              remainingTime := t.remainingTime - 1
              quantum := t.quantum + 1 },
     some (t.instructions.get ⟨t.currentInstruction, h⟩))
  else (t, none)

/-- Thread.isComplete (script.js:35-37). -/
def Thread.isComplete (t : Thread) : Bool :=
  t.instructions.length ≤ t.currentInstruction

/-- Thread.setState (script.js:39-42). -/
def Thread.setState (t : Thread) (s : TState) : Thread :=
  { t with state := s, timeInCurrentState := 0 }

/-- Thread.tick (script.js:44-49): per-state timer always advances, waitTime only
while READY or BLOCKED. -/
def Thread.tick (t : Thread) : Thread :=
  let t1 := { t with timeInCurrentState := t.timeInCurrentState + 1 }
  if t1.state = TState.ready ∨ t1.state = TState.blocked then
    { t1 with waitTime := t1.waitTime + 1 }
  else t1

/-- class Semaphore (script.js:52-75). -/
structure Semaphore where
  name : String
  value : Int
  waitQueue : List Nat
deriving DecidableEq, Repr

/-- Semaphore.wait (script.js:59-66): decrement; if the new value is negative enqueue
the caller at the tail and report false (must block), else true (proceed). -/
def Semaphore.wait (sem : Semaphore) (tid : Nat) : Semaphore × Bool :=
  let sem1 := { sem with value := sem.value - 1 }
  if sem1.value < 0 then
    ({ sem1 with waitQueue := sem1.waitQueue ++ [tid] }, false)
  else (sem1, true)

/-- Semaphore.signal (script.js:68-74): increment; dequeue and return the head of the
wait queue when non-empty, else null. -/
def Semaphore.signal (sem : Semaphore) : Semaphore × Option Nat :=
  let sem1 := { sem with value := sem.value + 1 }
  match sem1.waitQueue with
  | [] => (sem1, none)
  | u :: rest => ({ sem1 with waitQueue := rest }, some u)

/-- class Monitor (script.js:77-131). -/
structure Monitor where
  name : String
  owner : Option Nat
  entryQueue : List Nat
  conditionQueue : List Nat
deriving DecidableEq, Repr

/-- Result record of Monitor.exit (script.js:94-109). -/
structure MonitorExitResult where
  nextThread : Option Nat
  wasWaiting : Bool
deriving DecidableEq, Repr

/-- Result record of Monitor.wait (script.js:111-123). -/
structure MonitorWaitResult where
  nextThread : Option Nat
  currentBlocked : Bool
deriving DecidableEq, Repr

/-- Monitor.enter (script.js:85-92). -/
def Monitor.enter (m : Monitor) (tid : Nat) : Monitor × Bool :=
  match m.owner with
  | none => ({ m with owner := some tid }, true)
  | some _ => ({ m with entryQueue := m.entryQueue ++ [tid] }, false)

/-- Monitor.exit (script.js:94-109): clear ownership, then prefer the condition queue
over the entry queue for the next owner. -/
def Monitor.exit (m : Monitor) : Monitor × MonitorExitResult :=
  let m1 := { m with owner := none }
  match m1.conditionQueue with
  | u :: rest =>
      ({ m1 with owner := some u, conditionQueue := rest },
       { nextThread := some u, wasWaiting := true })
  | [] =>
      match m1.entryQueue with
      | u :: rest =>
          ({ m1 with owner := some u, entryQueue := rest },
           { nextThread := some u, wasWaiting := false })
      | [] => (m1, { nextThread := none, wasWaiting := false })

/-- Monitor.wait (script.js:111-123): only the owner may wait; it moves to the tail of
the condition queue, releases ownership, and the entry-queue head (if any) becomes
the new owner. -/
def Monitor.wait (m : Monitor) (tid : Nat) : Monitor × MonitorWaitResult :=
  if m.owner = some tid then
    let m1 := { m with conditionQueue := m.conditionQueue ++ [tid], owner := none }
    match m1.entryQueue with
    | u :: rest =>
        ({ m1 with owner := some u, entryQueue := rest },
         { nextThread := some u, currentBlocked := true })
    | [] => (m1, { nextThread := none, currentBlocked := true })
  else (m, { nextThread := none, currentBlocked := false })

/-- Monitor.signal (script.js:125-130): dequeue the condition-queue head without
transferring ownership. -/
def Monitor.signal (m : Monitor) : Monitor × Option Nat :=
  match m.conditionQueue with
  | u :: rest => ({ m with conditionQueue := rest }, some u)
  | [] => (m, none)

/-- class CPUCore (script.js:133-159); the resident thread is held by id. -/
structure CPUCore where
  id : Nat
  currentThread : Option Nat
  isIdle : Bool
  totalBusyTime : Nat
deriving DecidableEq, Repr

/-- CPUCore.tick (script.js:154-158). -/
def CPUCore.tick (c : CPUCore) : CPUCore :=
  if c.isIdle then c else { c with totalBusyTime := c.totalBusyTime + 1 }

/-- class Scheduler (script.js:161-195); the algorithm is kept as the raw string so
that the switch default case (any unknown algorithm selects like FCFS but never
preempts) is modelled faithfully. -/
structure Scheduler where
  algorithm : String
  timeQuantum : Int
deriving DecidableEq, Repr

/-- The index-tracking scan of the priority case of selectNextThread
(script.js:175-180): starting from a current best element and its index, walk the
rest of the queue, replacing the best exactly when a strictly higher priority is
seen.  `i` is the index of the head of the remaining list in the original queue. -/
def bestFrom (prio : α → Int) : List α → α → Nat → Nat → Nat × α
  | [], best, bestIdx, _ => (bestIdx, best)
  | y :: ys, best, bestIdx, i =>
      if prio best < prio y then bestFrom prio ys y i (i + 1)
      else bestFrom prio ys best bestIdx (i + 1)

/-- Scheduler.selectNextThread (script.js:167-187), polymorphic in the queue entry so
it applies both to raw thread records and to the engine's id-valued ready queue
(the source queue holds thread references; `prio` is the priority projection).
Returns the selected entry together with the remaining queue; none on empty. -/
def Scheduler.selectNextThread (sch : Scheduler) (prio : α → Int)
    (q : List α) : Option (α × List α) :=
  match q with
  | [] => none
  | x :: xs =>
      if sch.algorithm = "fcfs" then some (x, xs)
      else if sch.algorithm = "priority" then
        let r := bestFrom prio xs x 0 1
        match q[r.1]? with
        | some y => some (y, q.eraseIdx r.1)
        | none => none
      else some (x, xs)

/-- Scheduler.shouldPreempt (script.js:189-194): true iff round-robin and the thread's
quantum counter has reached the configured quantum. -/
def Scheduler.shouldPreempt (sch : Scheduler) (t : Thread) : Bool :=
  if sch.algorithm = "round-robin" then decide (sch.timeQuantum ≤ (t.quantum : Int))
  else false

/-- Replace-or-append update of a JS Map modelled as an insertion-ordered
association list (Map.set keeps the position of an existing key). -/
def mapSet (m : List (String × α)) (k : String) (v : α) : List (String × α) :=
  match m with
  | [] => [(k, v)]
  | p :: rest => if p.1 = k then (k, v) :: rest else p :: mapSet rest k v

/-- Map.get on the association-list model; none corresponds to undefined. -/
def mapGet (m : List (String × α)) (k : String) : Option α :=
  match m.find? (fun p => p.1 = k) with
  | some p => some p.2
  | none => none

/-- indexOf followed by splice(index, 1) (e.g. script.js:389-392): remove the first
occurrence if present, otherwise leave the list unchanged. -/
def removeFirst (l : List Nat) (x : Nat) : List Nat :=
  match l with
  | [] => []
  | y :: ys => if y = x then ys else y :: removeFirst ys x

/-- In-place update of the array element at a position, modelling mutation of the
aliased object held at that index. -/
def listModify (l : List α) (i : Nat) (f : α → α) : List α :=
  match l, i with
  | [], _ => []
  | x :: xs, 0 => f x :: xs
  | x :: xs, n + 1 => x :: listModify xs n f

/-- class SimulationEngine (script.js:197-213).  The eventLog and isRunning flag are
presentation-only and not modelled; Thread.nextId is the engine-held id allocator. -/
structure SimulationEngine where
  threads : List Thread
  readyQueue : List Nat
  blockedQueue : List Nat
  terminatedThreads : List Nat
  cpuCores : List CPUCore
  semaphores : List (String × Semaphore)
  monitors : List (String × Monitor)
  scheduler : Scheduler
  clockTick : Nat
  threadingModel : String
  userThreadCount : Nat
  kernelThreadCount : Nat
  nextId : Nat
deriving DecidableEq, Repr

/-- Dereference a thread id in the store (a JS object reference). -/
def SimulationEngine.getThread (s : SimulationEngine) (tid : Nat) : Option Thread :=
  s.threads.find? (fun t => t.id = tid)

/-- Mutate the thread object with the given id. -/
def SimulationEngine.mapThread (s : SimulationEngine) (tid : Nat)
    (f : Thread → Thread) : SimulationEngine :=
  { s with threads := s.threads.map (fun t => if t.id = tid then f t else t) }

/-- Priority projection used when the scheduler scans the id-valued ready queue; the
store lookup cannot fail in states reachable from setup (queues only hold admitted
ids), the 0 default is dead code mirroring no source line. -/
def SimulationEngine.prioOf (s : SimulationEngine) (tid : Nat) : Int :=
  match s.getThread tid with
  | some t => t.priority
  | none => 0

/-- CPUCore.releaseThread applied to the core at a position (script.js:147-152):
detach and return the resident thread (possibly null). -/
def SimulationEngine.releaseCore (s : SimulationEngine) (i : Nat) :
    SimulationEngine × Option Nat :=
  match s.cpuCores[i]? with
  | none => (s, none)
  | some c =>
      let f : CPUCore → CPUCore := fun c0 => { c0 with currentThread := none, isIdle := true }
      ({ s with cpuCores := listModify s.cpuCores i f }, c.currentThread)

/-- cpuCores.find(c => c.currentThread === thread) followed by releaseThread
(e.g. script.js:373-376). -/
def SimulationEngine.releaseCoreOf (s : SimulationEngine) (tid : Nat) : SimulationEngine :=
  match (s.cpuCores.enum.find? (fun p => p.2.currentThread = some tid)) with
  | some p => (s.releaseCore p.1).1
  | none => s

/-- CPUCore.assignThread at a position (script.js:141-145): bind the thread, mark
busy, set it RUNNING. -/
def SimulationEngine.assignThread (s : SimulationEngine) (i : Nat) (tid : Nat) :
    SimulationEngine :=
  let f : CPUCore → CPUCore := fun c => { c with currentThread := some tid, isIdle := false }
  let s1 := { s with cpuCores := listModify s.cpuCores i f }
  s1.mapThread tid (fun t => t.setState TState.running)

/-- moveToReady (script.js:279-283). -/
def SimulationEngine.moveToReady (s : SimulationEngine) (tid : Nat) : SimulationEngine :=
  let s1 := s.mapThread tid (fun t => t.setState TState.ready)
  { s1 with readyQueue := s1.readyQueue ++ [tid] }

/-- moveToBlocked (script.js:285-291): push to the blocked queue only if absent. -/
def SimulationEngine.moveToBlocked (s : SimulationEngine) (tid : Nat) : SimulationEngine :=
  let s1 := s.mapThread tid (fun t => t.setState TState.blocked)
  if tid ∈ s1.blockedQueue then s1
  else { s1 with blockedQueue := s1.blockedQueue ++ [tid] }

/-- moveToTerminated (script.js:293-299): record completion and turnaround times. -/
def SimulationEngine.moveToTerminated (s : SimulationEngine) (tid : Nat) : SimulationEngine :=
  let s1 := s.mapThread tid (fun t =>
    { t with state := TState.terminated, timeInCurrentState := 0,
             completionTime := s.clockTick,
             turnaroundTime := (s.clockTick : Int) - (t.arrivalTime : Int) })
  { s1 with terminatedThreads := s1.terminatedThreads ++ [tid] }

/-- executeInstruction (script.js:364-467).  `tid` is the thread whose instruction is
executing.  Each case fetches the named primitive from the registry; an unknown
name falls through silently. -/
def SimulationEngine.executeInstruction (s : SimulationEngine) (tid : Nat)
    (ins : Instruction) : SimulationEngine :=
  match ins with
  | .compute => s
  | .wait r =>
      match mapGet s.semaphores r with
      | none => s
      | some sem =>
          let w := sem.wait tid
          let s1 := { s with semaphores := mapSet s.semaphores r w.1 }
          if w.2 then s1
          else (s1.releaseCoreOf tid).moveToBlocked tid
  | .signal r =>
      match mapGet s.semaphores r with
      | none => s
      | some sem =>
          let w := sem.signal
          let s1 := { s with semaphores := mapSet s.semaphores r w.1 }
          match w.2 with
          | none => s1
          | some u =>
              ({ s1 with blockedQueue := removeFirst s1.blockedQueue u }).moveToReady u
  | .enterMonitor r =>
      match mapGet s.monitors r with
      | none => s
      | some m =>
          let w := m.enter tid
          let s1 := { s with monitors := mapSet s.monitors r w.1 }
          if w.2 then s1
          else (s1.releaseCoreOf tid).moveToBlocked tid
  | .exitMonitor r =>
      match mapGet s.monitors r with
      | none => s
      | some m =>
          let w := m.exit
          let s1 := { s with monitors := mapSet s.monitors r w.1 }
          match w.2.nextThread with
          | none => s1
          | some u =>
              ({ s1 with blockedQueue := removeFirst s1.blockedQueue u }).moveToReady u
  | .monitorWait r =>
      match mapGet s.monitors r with
      | none => s
      | some m =>
          let w := m.wait tid
          let s1 := { s with monitors := mapSet s.monitors r w.1 }
          let s2 := if w.2.currentBlocked then (s1.releaseCoreOf tid).moveToBlocked tid
                    else s1
          match w.2.nextThread with
          | none => s2
          | some u =>
              ({ s2 with blockedQueue := removeFirst s2.blockedQueue u }).moveToReady u
  | .monitorSignal r =>
      match mapGet s.monitors r with
      | none => s
      | some m =>
          let w := m.signal
          let s1 := { s with monitors := mapSet s.monitors r w.1 }
          match w.2 with
          | none => s1
          | some u =>
              ({ s1 with blockedQueue := removeFirst s1.blockedQueue u }).moveToReady u

/-- The per-core body of the tick loop (script.js:320-341).  `none` models the
TypeError thrown at script.js:336 when the preemption branch dereferences the null
returned by releaseThread after the instruction already released the core. -/
def SimulationEngine.tickCoreStep (s : SimulationEngine) (i : Nat) :
    Option SimulationEngine :=
  match s.cpuCores[i]? with
  | none => some s
  | some core =>
      let sA := { s with cpuCores := listModify s.cpuCores i CPUCore.tick }
      match core.isIdle, core.currentThread with
      | false, some tid =>
          match sA.getThread tid with
          | none => some sA
          | some thread =>
              let e := thread.execute
              let sB0 := sA.mapThread tid (fun _ => e.1)
              let sB := match e.2 with
                        | some ins => sB0.executeInstruction tid ins
                        | none => sB0
              match sB.getThread tid with
              | none => some sB
              | some th2 =>
                  if e.2.isNone || th2.isComplete then
                    some (((sB.releaseCore i).1).moveToTerminated tid)
                  else if sB.scheduler.shouldPreempt th2 then
                    let rel := sB.releaseCore i
                    match rel.2 with
                    | none => none
                    | some ptid =>
                        let sC := rel.1.mapThread ptid (fun t => { t with quantum := 0 })
                        some (sC.moveToReady ptid)
                  else some sB
      | _, _ => some sA

/-- The many-to-one adjustment (script.js:343-350): collect the positions of the idle
cores and set isIdle to true on every idle core beyond the first — mutating the
aliased array elements exactly as the source does. -/
def SimulationEngine.manyToOneAdjust (s : SimulationEngine) : SimulationEngine :=
  if s.threadingModel = "many-to-one" then
    let availIdx := (s.cpuCores.enum.filter (fun p => p.2.isIdle)).map (fun p => p.1)
    if availIdx.length > 1 then
      (availIdx.drop 1).foldl
        (fun s0 i => { s0 with cpuCores := listModify s0.cpuCores i setIdleTrue }) s
    else s
  else s
where
  setIdleTrue (c : CPUCore) : CPUCore := { c with isIdle := true }

/-- The dispatch body of the tick loop (script.js:352-361): fill an idle core from the
ready queue via the scheduler, resetting the selected thread's quantum counter. -/
def SimulationEngine.dispatchStep (s : SimulationEngine) (i : Nat) : SimulationEngine :=
  match s.cpuCores[i]? with
  | none => s
  | some core =>
      if core.isIdle = true ∧ s.readyQueue ≠ [] then
        match s.scheduler.selectNextThread s.prioOf s.readyQueue with
        | none => s
        | some sel =>
            let s1 := { s with readyQueue := sel.2 }
            let s2 := s1.mapThread sel.1 (fun t => { t with quantum := 0 })
            s2.assignThread i sel.1
      else s

/-- SimulationEngine.tick (script.js:315-362): advance the clock, tick every thread,
run the per-core execution loop in ascending position order, apply the many-to-one
adjustment, then dispatch idle cores in ascending position order. -/
def SimulationEngine.tick (s : SimulationEngine) : Option SimulationEngine :=
  let s1 := { s with clockTick := s.clockTick + 1 }
  let s2 := { s1 with threads := s1.threads.map Thread.tick }
  match (List.range s2.cpuCores.length).foldlM SimulationEngine.tickCoreStep s2 with
  | none => none
  | some s3 =>
      let s4 := s3.manyToOneAdjust
      some ((List.range s4.cpuCores.length).foldl SimulationEngine.dispatchStep s4)

/-- mapThreadToKernel (script.js:256-277), applied at admission; the switch has no
default so an unknown threading model assigns nothing. -/
def SimulationEngine.mapThreadToKernel (s : SimulationEngine) (tid : Nat) :
    SimulationEngine :=
  if s.threadingModel = "one-to-one" then
    let k := s.kernelThreadCount + 1
    ({ s with kernelThreadCount := k }).mapThread tid
      (fun t => { t with kernelThreadId := some k })
  else if s.threadingModel = "many-to-one" then
    let s1 := if s.kernelThreadCount = 0 then { s with kernelThreadCount := 1 } else s
    s1.mapThread tid (fun t => { t with kernelThreadId := some 1 })
  else if s.threadingModel = "many-to-many" then
    let k := s.userThreadCount % s.cpuCores.length + 1
    let s1 := if s.kernelThreadCount < k then { s with kernelThreadCount := k } else s
    s1.mapThread tid (fun t => { t with kernelThreadId := some k })
  else s

/-- addThread (script.js:239-254) together with the Thread constructor call that
precedes it in every caller: allocate the id, stamp arrivalTime with the current
clock, append to the thread list, bump userThreadCount, apply the kernel mapping
and (re)set the state to NEW.  The setTimeout(…, 100) scheduled here is a
wall-clock callback; it is modelled as the separate admitTimer event below, not as
part of this synchronous operation. -/
def SimulationEngine.addThread (s : SimulationEngine) (name : String) (priority : Int)
    (instructions : List Instruction) : SimulationEngine :=
  let t0 := mkThread s.nextId name priority instructions
  let s1 := { s with nextId := s.nextId + 1 }
  let t := { t0 with arrivalTime := s1.clockTick }
  let s2 := { s1 with threads := s1.threads ++ [t],
                      userThreadCount := s1.userThreadCount + 1 }
  let s3 := s2.mapThreadToKernel t.id
  s3.mapThread t.id (fun th => th.setState TState.new)

/-- The body of the setTimeout callback scheduled by addThread (script.js:249-253):
when the 100 ms wall-clock delay elapses, move the thread to READY if it is still
NEW.  This event is driven by real time, not by the simulated clock. -/
def SimulationEngine.admitTimer (s : SimulationEngine) (tid : Nat) : SimulationEngine :=
  match s.getThread tid with
  | some t => if t.state = TState.new then s.moveToReady tid else s
  | none => s

/-- addSemaphore (script.js:301-306); Map.set silently replaces an existing entry. -/
def SimulationEngine.addSemaphore (s : SimulationEngine) (name : String)
    (initialValue : Int) : SimulationEngine :=
  { s with semaphores :=
      mapSet s.semaphores name { name := name, value := initialValue, waitQueue := [] } }

/-- addMonitor (script.js:308-313); Map.set silently replaces an existing entry. -/
def SimulationEngine.addMonitor (s : SimulationEngine) (name : String) :
    SimulationEngine :=
  { s with monitors :=
      mapSet s.monitors name { name := name, owner := none, entryQueue := [],
                               conditionQueue := [] } }

/-- reset followed by the body of the engine configuration call
(script.js:215-221 and 223-237): fresh collections, the requested core array,
scheduler configuration and threading model, id allocator restarted at 1. -/
def SimulationEngine.setup (numCores : Nat) (algo : String) (quantum : Int)
    (model : String) : SimulationEngine :=
  { threads := [], readyQueue := [], blockedQueue := [], terminatedThreads := []
    cpuCores := (List.range numCores).map
      (fun i => { id := i, currentThread := none, isIdle := true, totalBusyTime := 0 })
    semaphores := [], monitors := []
    scheduler := { algorithm := algo, timeQuantum := quantum }
    clockTick := 0
    threadingModel := model
    userThreadCount := 0, kernelThreadCount := 0, nextId := 1 }

/-- Driver-visible engine events: the four mutating entry points plus the wall-clock
admission callback.  tick is the only fallible one. -/
inductive EngineOp
  | addThread (name : String) (priority : Int) (instructions : List Instruction)
  | addSemaphore (name : String) (initialValue : Int)
  | addMonitor (name : String)
  | admitTimer (tid : Nat)
  | tick
deriving DecidableEq, Repr

/-- One engine event applied to a state. -/
def applyOp (s : SimulationEngine) (op : EngineOp) : Option SimulationEngine :=
  match op with
  | .addThread n p ins => some (s.addThread n p ins)
  | .addSemaphore n v => some (s.addSemaphore n v)
  | .addMonitor n => some (s.addMonitor n)
  | .admitTimer tid => some (s.admitTimer tid)
  | .tick => s.tick

/-- A sequence of engine events. -/
def runOps (s : SimulationEngine) (ops : List EngineOp) : Option SimulationEngine :=
  ops.foldlM applyOp s

/-- An operation on a single semaphore, for stating the waitQueue/value invariant
over arbitrary wait/signal sequences (spec section 8). -/
inductive SemOp
  | wait (tid : Nat)
  | signal
deriving DecidableEq, Repr

/-- Apply one semaphore operation, discarding the report (the engine reads the
report but the semaphore's own bookkeeping is exactly this). -/
def semStep (sem : Semaphore) (op : SemOp) : Semaphore :=
  match op with
  | .wait tid => (sem.wait tid).1
  | .signal => sem.signal.1

/-- A sequence of wait/signal operations applied to a semaphore. -/
def semRun (sem : Semaphore) (ops : List SemOp) : Semaphore :=
  ops.foldl semStep sem

/-- The per-thread accounting invariant of spec section 3: remainingTime plus the
execution cursor equals burstTime. -/
def ThreadOk (t : Thread) : Prop :=
  t.remainingTime + (t.currentInstruction : Int) = (t.burstTime : Int)

/-- Every thread owned by the engine satisfies the accounting invariant. -/
def AllOk (s : SimulationEngine) : Prop :=
  ∀ t ∈ s.threads, ThreadOk t

/-- Every thread reachable by id in the first state is still there in the second with
a cursor at least as large (cursor monotonicity across engine operations). -/
def CursorLe (s s' : SimulationEngine) : Prop :=
  ∀ tid t, s.getThread tid = some t →
    ∃ t', s'.getThread tid = some t' ∧ t.currentInstruction ≤ t'.currentInstruction

/-- Every thread reachable by id keeps its cursor, quantum counter and instruction
list across the step from the first state to the second (instruction side effects
touch thread states and queues, never the execution counters). -/
def KeepsCQ (s s' : SimulationEngine) : Prop :=
  ∀ tid t, s.getThread tid = some t →
    ∃ t', s'.getThread tid = some t' ∧
      t'.currentInstruction = t.currentInstruction ∧
      t'.quantum = t.quantum ∧
      t'.instructions = t.instructions

/-- Combined preservation property of one engine step: the accounting invariant is
preserved and no thread's cursor decreases. -/
def GoodStep (s s' : SimulationEngine) : Prop :=
  (AllOk s → AllOk s') ∧ CursorLe s s'

/-- A concrete thread fixture: thread 1 running two compute instructions with its
round-robin quantum counter already at 1. -/
def rrThread : Thread :=
  { mkThread 1 "A" 5 [Instruction.compute, Instruction.compute] with
      state := TState.running, quantum := 1, kernelThreadId := some 1 }

/-- A concrete engine fixture: one round-robin core (quantum 2) running rrThread. -/
def rrState : SimulationEngine :=
  { SimulationEngine.setup 1 "round-robin" 2 "one-to-one" with
      threads := [rrThread],
      cpuCores := [{ id := 0, currentThread := some 1, isIdle := false,
                     totalBusyTime := 0 }],
      clockTick := 1, userThreadCount := 1, kernelThreadCount := 1, nextId := 2 }

/-- rrState after the busy-core bump at the head of its core step. -/
def rrStateA : SimulationEngine :=
  { rrState with cpuCores := listModify rrState.cpuCores 0 CPUCore.tick }

/-- rrStateA after thread 1 executes its compute instruction. -/
def rrStateB : SimulationEngine :=
  (rrStateA.mapThread 1 (fun _ => rrThread.execute.1)).executeInstruction 1
    Instruction.compute

/-- Claim C1: under the many-to-one threading model, after every tick at most one CPU
core has isIdle = false.  Refuted on the code: the adjustment at script.js:343-350
sets isIdle to true on cores that are already idle (a no-op), so the dispatch loop
still fills every idle core.  With 2 declared cores, 2 ready threads and the
many-to-one model, a single tick leaves both cores busy. -/
theorem c1_manyToOne_two_busy_cores :
    ((runOps (SimulationEngine.setup 2 "round-robin" 3 "many-to-one")
        [.addThread "A" 5 [.compute, .compute], .addThread "B" 5 [.compute, .compute],
         .admitTimer 1, .admitTimer 2, .tick]).map
      (fun s => ((s.cpuCores.filter (fun c => c.isIdle = false)).length,
                 s.threadingModel))) = some (2, "many-to-one") := by
  rfl

/-- Claim C2: tick is total and panic-free for every well-formed configuration.
Refuted on the code: with round-robin quantum 1 (well-formed: one core, positive
quantum, unique names) a thread whose instruction blocks on the same tick its
quantum expires reaches the preemption branch after its core was already released;
script.js:336 then writes to the null result of releaseThread and throws a
TypeError.  The first tick after dispatch succeeds, the second crashes (= none). -/
theorem c2_tick_throws_on_block_at_quantum_expiry :
    (runOps (SimulationEngine.setup 1 "round-robin" 1 "one-to-one")
        [.addSemaphore "s" 0, .addThread "A" 5 [.wait "s", .compute],
         .admitTimer 1, .tick]).isSome = true
    ∧ runOps (SimulationEngine.setup 1 "round-robin" 1 "one-to-one")
        [.addSemaphore "s" 0, .addThread "A" 5 [.wait "s", .compute],
         .admitTimer 1, .tick, .tick] = none := by
  constructor
  · rfl
  · rfl

/-- Claim C3: no engine operation ever transitions a thread out of TERMINATED.
Refuted on the code: a thread whose final instruction blocks on a semaphore is
moved to TERMINATED (script.js:331-333) while still sitting in the semaphore's
wait queue; a later signal dequeues it and moveToReady turns TERMINATED into
READY, after which it is even dispatched to RUNNING again.  Thread 1 below is
TERMINATED after two ticks and RUNNING after the third. -/
theorem c3_terminated_thread_revived :
    ((runOps (SimulationEngine.setup 1 "fcfs" 3 "one-to-one")
        [.addSemaphore "s" 0, .addThread "A" 5 [.wait "s"],
         .addThread "B" 5 [.signal "s"], .admitTimer 1, .admitTimer 2,
         .tick, .tick]).bind
      (fun s => (s.getThread 1).map (fun t => (t.state, s.terminatedThreads))))
      = some (TState.terminated, [1])
    ∧ ((runOps (SimulationEngine.setup 1 "fcfs" 3 "one-to-one")
        [.addSemaphore "s" 0, .addThread "A" 5 [.wait "s"],
         .addThread "B" 5 [.signal "s"], .admitTimer 1, .admitTimer 2,
         .tick, .tick, .tick]).bind
      (fun s => (s.getThread 1).map (fun t => (t.state, s.terminatedThreads))))
      = some (TState.running, [1, 2]) := by
  constructor
  · rfl
  · rfl

/-- Claim C8: addThread admits the thread NEW with arrivalTime equal to the current
clock tick (true), and the NEW to READY transition is a deterministic function of
the simulated clock, not of wall-clock timers.  Refuted on the code: the
transition is performed by a setTimeout(…, 100) wall-clock callback
(script.js:249-253); under the simulated clock alone the thread stays NEW through
any number of ticks, and it is exactly the wall-clock admitTimer event that moves
it to READY. -/
theorem c8_admission_is_wall_clock_driven :
    ((runOps (SimulationEngine.setup 1 "fcfs" 3 "one-to-one")
        [.addThread "A" 5 [.compute]]).bind
      (fun s => (s.getThread 1).map (fun t => (t.state, t.arrivalTime))))
      = some (TState.new, 0)
    ∧ ((runOps (SimulationEngine.setup 1 "fcfs" 3 "one-to-one")
        [.addThread "A" 5 [.compute], .tick, .tick, .tick, .tick, .tick]).bind
      (fun s => (s.getThread 1).map (fun t => t.state))) = some TState.new
    ∧ ((runOps (SimulationEngine.setup 1 "fcfs" 3 "one-to-one")
        [.addThread "A" 5 [.compute], .admitTimer 1]).bind
      (fun s => (s.getThread 1).map (fun t => t.state))) = some TState.ready := by
  refine ⟨?_, ?_, ?_⟩
  · rfl
  · rfl
  · rfl

/-- One wait or signal operation preserves the semaphore invariant
waitQueue.length = max 0 (-value). -/
theorem semStep_queue_inv (sem : Semaphore) (op : SemOp)
    (h : (sem.waitQueue.length : Int) = max 0 (-sem.value)) :
    ((semStep sem op).waitQueue.length : Int) = max 0 (-(semStep sem op).value) := by
  cases op with
  | wait tid =>
      simp only [semStep, Semaphore.wait]
      split
      · simp only [List.length_append, List.length_cons, List.length_nil]
        push_cast
        omega
      · simp only []
        omega
  | signal =>
      simp only [semStep, Semaphore.signal]
      cases hq : sem.waitQueue with
      | nil =>
          simp only [hq, List.length_nil] at h ⊢
          omega
      | cons u rest =>
          simp only [hq, List.length_cons] at h ⊢
          push_cast at h ⊢
          omega

/-- The semaphore invariant holds after any operation sequence from any state that
satisfies it. -/
theorem semRun_queue_inv (ops : List SemOp) (sem : Semaphore)
    (h : (sem.waitQueue.length : Int) = max 0 (-sem.value)) :
    ((semRun sem ops).waitQueue.length : Int) = max 0 (-(semRun sem ops).value) := by
  induction ops generalizing sem with
  | nil => exact h
  | cons op rest ih =>
      exact ih (semStep sem op) (semStep_queue_inv sem op h)

/-- Claim C6: for a semaphore created with a non-negative initial value, after every
sequence of wait/signal operations waitQueue.length = max 0 (-value); wait
enqueues the caller at the tail exactly when the decremented value is negative,
and signal dequeues and returns the head exactly when the queue is non-empty. -/
theorem c6_semaphore_queue_invariant (nm : String) (v0 : Int) (hv : 0 ≤ v0)
    (ops : List SemOp) :
    (((semRun { name := nm, value := v0, waitQueue := [] } ops).waitQueue.length : Int)
        = max 0 (-(semRun { name := nm, value := v0, waitQueue := [] } ops).value))
    ∧ (∀ sem : Semaphore, ∀ tid : Nat,
        ((sem.wait tid).2 = false ↔ sem.value - 1 < 0)
        ∧ (sem.wait tid).1.value = sem.value - 1
        ∧ ((sem.wait tid).2 = false →
            (sem.wait tid).1.waitQueue = sem.waitQueue ++ [tid])
        ∧ ((sem.wait tid).2 = true → (sem.wait tid).1.waitQueue = sem.waitQueue))
    ∧ (∀ sem : Semaphore,
        (sem.waitQueue = [] →
          sem.signal = ({ sem with value := sem.value + 1 }, none))
        ∧ (∀ u rest, sem.waitQueue = u :: rest →
          sem.signal = ({ sem with value := sem.value + 1, waitQueue := rest }, some u))) := by
  refine ⟨?_, ?_, ?_⟩
  · apply semRun_queue_inv
    simp only [List.length_nil]
    omega
  · intro sem tid
    refine ⟨?_, ?_, ?_, ?_⟩ <;> simp only [Semaphore.wait] <;> split <;> simp_all
  · intro sem
    constructor
    · intro hq
      simp [Semaphore.signal, hq]
    · intro u rest hq
      simp [Semaphore.signal, hq]

/-- Witness for C6 at a concrete input: initial value 1, operations
wait 7, wait 8, signal — queue length 1, value -1. -/
theorem c6_witness :
    (((semRun { name := "buffer", value := 1, waitQueue := [] }
        [SemOp.wait 7, SemOp.wait 8, SemOp.signal]).waitQueue.length : Int)
      = max 0 (-(semRun { name := "buffer", value := 1, waitQueue := [] }
        [SemOp.wait 7, SemOp.wait 8, SemOp.signal]).value)) := by
  exact (c6_semaphore_queue_invariant "buffer" 1 (by decide)
    [SemOp.wait 7, SemOp.wait 8, SemOp.signal]).1

/-- Claim C7: a wait/signal/monitor instruction whose resource name is not in the
corresponding registry is a silent no-op — executeInstruction returns the state
unchanged (no semaphore, monitor, queue, core or thread change) — while the
cursor advance and tick consumption happened in Thread.execute, which advances
the cursor, decrements remainingTime and hands back the consumed instruction. -/
theorem c7_unknown_resource_noop (s : SimulationEngine) (tid : Nat) (r : String) :
    (mapGet s.semaphores r = none →
        s.executeInstruction tid (.wait r) = s
        ∧ s.executeInstruction tid (.signal r) = s)
    ∧ (mapGet s.monitors r = none →
        s.executeInstruction tid (.enterMonitor r) = s
        ∧ s.executeInstruction tid (.exitMonitor r) = s
        ∧ s.executeInstruction tid (.monitorWait r) = s
        ∧ s.executeInstruction tid (.monitorSignal r) = s)
    ∧ (∀ t : Thread, ∀ h : t.currentInstruction < t.instructions.length,
        t.execute.1.currentInstruction = t.currentInstruction + 1
        ∧ t.execute.1.remainingTime = t.remainingTime - 1
        ∧ t.execute.2 = some (t.instructions.get ⟨t.currentInstruction, h⟩)) := by
  refine ⟨?_, ?_, ?_⟩
  · intro h
    constructor <;> simp [SimulationEngine.executeInstruction, h]
  · intro h
    refine ⟨?_, ?_, ?_, ?_⟩ <;> simp [SimulationEngine.executeInstruction, h]
  · intro t h
    refine ⟨?_, ?_, ?_⟩ <;> simp [Thread.execute, h]

/-- Witness for C7 at a concrete input: an engine with empty registries executing a
wait on the unknown name x, and a one-instruction thread consuming its
instruction. -/
theorem c7_witness :
    ((SimulationEngine.setup 1 "fcfs" 3 "one-to-one").executeInstruction 1
        (.wait "x") = SimulationEngine.setup 1 "fcfs" 3 "one-to-one")
    ∧ (mkThread 1 "A" 5 [.compute]).execute.1.currentInstruction = 1 := by
  constructor
  · exact ((c7_unknown_resource_noop (SimulationEngine.setup 1 "fcfs" 3 "one-to-one")
      1 "x").1 rfl).1
  · exact ((c7_unknown_resource_noop (SimulationEngine.setup 1 "fcfs" 3 "one-to-one")
      1 "x").2.2 (mkThread 1 "A" 5 [.compute]) (by decide)).1

/-- Characterisation of the index-tracking priority scan: the result is at least every
scanned element and at least the incoming best; it is either the incoming best at
its incoming index, or an element of the scanned list at absolute index i + k that
strictly exceeds the incoming best and every scanned element before it. -/
theorem bestFrom_spec (prio : α → Int) :
    ∀ (ys : List α) (b : α) (bi i : Nat),
      (∀ y ∈ ys, prio y ≤ prio (bestFrom prio ys b bi i).2)
      ∧ prio b ≤ prio (bestFrom prio ys b bi i).2
      ∧ (((bestFrom prio ys b bi i).2 = b ∧ (bestFrom prio ys b bi i).1 = bi)
         ∨ (∃ k, ys[k]? = some (bestFrom prio ys b bi i).2
             ∧ (bestFrom prio ys b bi i).1 = i + k
             ∧ prio b < prio (bestFrom prio ys b bi i).2
             ∧ ∀ k' y, k' < k → ys[k']? = some y →
                 prio y < prio (bestFrom prio ys b bi i).2)) := by
  intro ys
  induction ys with
  | nil =>
      intro b bi i
      simp [bestFrom]
  | cons y ys ih =>
      intro b bi i
      by_cases hby : prio b < prio y
      · have hunf : bestFrom prio (y :: ys) b bi i = bestFrom prio ys y i (i + 1) := by
          simp [bestFrom, hby]
        obtain ⟨hmax, hbase, hcases⟩ := ih y i (i + 1)
        rw [hunf]
        refine ⟨?_, ?_, ?_⟩
        · intro z hz
          rcases List.mem_cons.mp hz with h | h
          · exact h ▸ hbase
          · exact hmax z h
        · exact le_of_lt (lt_of_lt_of_le hby hbase)
        · right
          rcases hcases with ⟨he, hi⟩ | ⟨k, hk, hik, hlt, hbefore⟩
          · exact ⟨0, by simp [he], by simp [hi], by rw [he]; exact hby, by omega⟩
          · refine ⟨k + 1, by simpa using hk, by omega, lt_trans hby hlt, ?_⟩
            intro k' z hk' hz
            cases k' with
            | zero =>
                simp only [List.getElem?_cons_zero, Option.some.injEq] at hz
                exact hz ▸ hlt
            | succ j =>
                simp only [List.getElem?_cons_succ] at hz
                exact hbefore j z (by omega) hz
      · have hunf : bestFrom prio (y :: ys) b bi i = bestFrom prio ys b bi (i + 1) := by
          simp [bestFrom, hby]
        obtain ⟨hmax, hbase, hcases⟩ := ih b bi (i + 1)
        rw [hunf]
        refine ⟨?_, hbase, ?_⟩
        · intro z hz
          rcases List.mem_cons.mp hz with h | h
          · exact h ▸ le_trans (not_lt.mp hby) hbase
          · exact hmax z h
        · rcases hcases with ⟨he, hi⟩ | ⟨k, hk, hik, hlt, hbefore⟩
          · exact Or.inl ⟨he, hi⟩
          · right
            refine ⟨k + 1, by simpa using hk, by omega, hlt, ?_⟩
            intro k' z hk' hz
            cases k' with
            | zero =>
                simp only [List.getElem?_cons_zero, Option.some.injEq] at hz
                exact hz ▸ lt_of_le_of_lt (not_lt.mp hby) hlt
            | succ j =>
                simp only [List.getElem?_cons_succ] at hz
                exact hbefore j z (by omega) hz

/-- Claim C5: for every non-empty ready queue, selectNextThread under the priority
algorithm removes and returns an entry of maximal priority; every entry at a
strictly earlier position has strictly smaller priority (so among equal maxima the
earliest is taken), and the remainder is the queue with exactly that position
removed, preserving the relative order of the rest. -/
theorem c5_priority_select_max_earliest (sch : Scheduler) (prio : α → Int)
    (q : List α) (halg : sch.algorithm = "priority") (hq : q ≠ []) :
    ∃ x i rest, sch.selectNextThread prio q = some (x, rest)
      ∧ q[i]? = some x
      ∧ rest = q.eraseIdx i
      ∧ (∀ y ∈ q, prio y ≤ prio x)
      ∧ (∀ j y, j < i → q[j]? = some y → prio y < prio x) := by
  match q with
  | [] => exact absurd rfl hq
  | x :: xs =>
    obtain ⟨hmax, hbase, hcases⟩ := bestFrom_spec prio xs x 0 1
    have hidx : (x :: xs)[(bestFrom prio xs x 0 1).1]?
        = some (bestFrom prio xs x 0 1).2 := by
      rcases hcases with ⟨he, hi⟩ | ⟨k, hk, hik, _, _⟩
      · rw [hi, he]
        simp
      · rw [hik, Nat.add_comm]
        simpa using hk
    refine ⟨(bestFrom prio xs x 0 1).2, (bestFrom prio xs x 0 1).1,
        (x :: xs).eraseIdx (bestFrom prio xs x 0 1).1, ?_, hidx, rfl, ?_, ?_⟩
    · simp only [Scheduler.selectNextThread, halg]
      rw [hidx, if_neg (by decide : ¬ ("priority" = "fcfs"))]
      simp
    · intro y hy
      rcases List.mem_cons.mp hy with h | h
      · exact h ▸ hbase
      · exact hmax y h
    · intro j y hj hjy
      rcases hcases with ⟨he, hi⟩ | ⟨k, hk, hik, hlt, hbefore⟩
      · omega
      · rw [hik] at hj
        cases j with
        | zero =>
            simp only [List.getElem?_cons_zero, Option.some.injEq] at hjy
            exact hjy ▸ hlt
        | succ j' =>
            simp only [List.getElem?_cons_succ] at hjy
            exact hbefore j' y (by omega) hjy

/-- Witness for C5 at a concrete input: priority scheduling on the queue of
priorities 1, 3, 2, 3 selects the earliest maximal entry. -/
theorem c5_witness :
    ∃ x i rest,
      Scheduler.selectNextThread { algorithm := "priority", timeQuantum := 3 }
        (fun v : Int => v) [1, 3, 2, 3] = some (x, rest)
      ∧ [(1 : Int), 3, 2, 3][i]? = some x
      ∧ rest = [(1 : Int), 3, 2, 3].eraseIdx i
      ∧ (∀ y ∈ [(1 : Int), 3, 2, 3], (fun v : Int => v) y ≤ (fun v : Int => v) x)
      ∧ (∀ j y, j < i → [(1 : Int), 3, 2, 3][j]? = some y →
          (fun v : Int => v) y < (fun v : Int => v) x) :=
  c5_priority_select_max_earliest { algorithm := "priority", timeQuantum := 3 }
    (fun v : Int => v) [1, 3, 2, 3] rfl (by decide)

/-- A thread found by id satisfies the id predicate. -/
theorem getThread_id {s : SimulationEngine} {tid : Nat} {t : Thread}
    (h : s.getThread tid = some t) : t.id = tid := by
  have := List.find?_some h
  simpa using this

/-- A thread found by id is a member of the store. -/
theorem getThread_mem {s : SimulationEngine} {tid : Nat} {t : Thread}
    (h : s.getThread tid = some t) : t ∈ s.threads :=
  List.mem_of_find?_eq_some h

/-- find? by id commutes with a map that preserves every element's id. -/
theorem find_id_map (g : Thread → Thread) (hg : ∀ t, (g t).id = t.id) (tid : Nat) :
    ∀ l : List Thread,
      (l.map g).find? (fun t => t.id = tid) = (l.find? (fun t => t.id = tid)).map g := by
  intro l
  induction l with
  | nil => rfl
  | cons x xs ih =>
      by_cases hx : x.id = tid
      · rw [List.map_cons, List.find?_cons_of_pos, List.find?_cons_of_pos] <;>
          simp [hg, hx]
      · rw [List.map_cons, List.find?_cons_of_neg, List.find?_cons_of_neg, ih] <;>
          simp [hg, hx]

/-- getThread after mapThread, for an update that preserves the id of the threads it
actually rewrites. -/
theorem getThread_mapThread (s : SimulationEngine) (tid0 tid : Nat)
    (f : Thread → Thread) (hf : ∀ t, t.id = tid0 → (f t).id = t.id) :
    (s.mapThread tid0 f).getThread tid
      = (s.getThread tid).map (fun t => if t.id = tid0 then f t else t) := by
  unfold SimulationEngine.mapThread SimulationEngine.getThread
  exact find_id_map _ (by
    intro t
    by_cases h : t.id = tid0
    · simp [h, hf t h]
    · simp [h]) tid s.threads

/-- getThread at the updated id. -/
theorem getThread_mapThread_self {s : SimulationEngine} {tid : Nat} {t : Thread}
    (f : Thread → Thread) (hf : ∀ u, u.id = tid → (f u).id = u.id)
    (h : s.getThread tid = some t) :
    (s.mapThread tid f).getThread tid = some (f t) := by
  rw [getThread_mapThread s tid tid f hf, h]
  simp [getThread_id h]

/-- getThread at a different id is untouched by mapThread. -/
theorem getThread_mapThread_ne {s : SimulationEngine} {tid0 tid : Nat}
    (f : Thread → Thread) (hf : ∀ u, u.id = tid0 → (f u).id = u.id)
    (hne : tid ≠ tid0) :
    (s.mapThread tid0 f).getThread tid = s.getThread tid := by
  rw [getThread_mapThread s tid0 tid f hf]
  cases h : s.getThread tid with
  | none => rfl
  | some t => simp [getThread_id h, hne]

/-- getThread only reads the thread store. -/
theorem getThread_of_threads_eq {s s' : SimulationEngine}
    (h : s'.threads = s.threads) (tid : Nat) : s'.getThread tid = s.getThread tid := by
  unfold SimulationEngine.getThread
  rw [h]

/-- A successful find? survives appending on the right. -/
theorem find_append_left {p : α → Bool} {l1 : List α} {a : α} (l2 : List α)
    (h : l1.find? p = some a) : (l1 ++ l2).find? p = some a := by
  induction l1 with
  | nil => simp [List.find?] at h
  | cons x xs ih =>
      by_cases hx : p x
      · rw [List.find?_cons_of_pos _ hx] at h
        rw [List.cons_append, List.find?_cons_of_pos _ hx]
        exact h
      · rw [List.find?_cons_of_neg _ (by simpa using hx)] at h
        rw [List.cons_append, List.find?_cons_of_neg _ (by simpa using hx)]
        exact ih h

/-- GoodStep is reflexive. -/
theorem GoodStep_refl (s : SimulationEngine) : GoodStep s s :=
  ⟨fun h => h, fun tid t h => ⟨t, h, le_refl _⟩⟩

/-- GoodStep composes. -/
theorem GoodStep_trans {s1 s2 s3 : SimulationEngine}
    (h1 : GoodStep s1 s2) (h2 : GoodStep s2 s3) : GoodStep s1 s3 := by
  refine ⟨fun h => h2.1 (h1.1 h), ?_⟩
  intro tid t hget
  obtain ⟨t2, hget2, hle2⟩ := h1.2 tid t hget
  obtain ⟨t3, hget3, hle3⟩ := h2.2 tid t2 hget2
  exact ⟨t3, hget3, le_trans hle2 hle3⟩

/-- A step that does not touch the thread store is a GoodStep. -/
theorem GoodStep_of_threads_eq {s s' : SimulationEngine}
    (h : s'.threads = s.threads) : GoodStep s s' := by
  constructor
  · intro hA t ht
    exact hA t (h ▸ ht)
  · intro tid t hget
    exact ⟨t, (getThread_of_threads_eq h tid).symm ▸ hget, le_refl _⟩

/-- setState keeps the id. -/
theorem id_setState (t : Thread) (st : TState) : (t.setState st).id = t.id := rfl

/-- Thread.tick keeps the id. -/
theorem id_tick (t : Thread) : t.tick.id = t.id := by
  simp only [Thread.tick]
  split <;> rfl

/-- Thread.execute keeps the id. -/
theorem id_execute (t : Thread) : t.execute.1.id = t.id := by
  unfold Thread.execute
  split <;> rfl

/-- setState keeps the accounting invariant. -/
theorem ThreadOk_setState (t : Thread) (st : TState) (h : ThreadOk t) :
    ThreadOk (t.setState st) := h

/-- Thread.tick keeps the accounting invariant. -/
theorem ThreadOk_tick (t : Thread) (h : ThreadOk t) : ThreadOk t.tick := by
  simp only [Thread.tick]
  split <;> exact h

/-- Thread.execute keeps the accounting invariant. -/
theorem ThreadOk_execute (t : Thread) (h : ThreadOk t) : ThreadOk t.execute.1 := by
  unfold Thread.execute
  split
  · simp only [ThreadOk] at *
    push_cast
    omega
  · exact h

/-- A freshly constructed thread satisfies the accounting invariant. -/
theorem ThreadOk_mk (id : Nat) (nm : String) (p : Int) (ins : List Instruction) :
    ThreadOk (mkThread id nm p ins) := by
  simp [ThreadOk, mkThread]

/-- mapThread is a GoodStep when the update preserves the id and the invariant of the
threads it rewrites and does not decrease the cursor of the stored thread. -/
theorem GoodStep_mapThread (s : SimulationEngine) (tid0 : Nat) (f : Thread → Thread)
    (hid : ∀ t, t.id = tid0 → (f t).id = t.id)
    (hok : AllOk s → ∀ t, t ∈ s.threads → ThreadOk (f t))
    (hcur : ∀ t, s.getThread tid0 = some t →
      t.currentInstruction ≤ (f t).currentInstruction) :
    GoodStep s (s.mapThread tid0 f) := by
  constructor
  · intro hA t' ht'
    simp only [SimulationEngine.mapThread, List.mem_map] at ht'
    obtain ⟨t, htmem, hgt⟩ := ht'
    by_cases h : t.id = tid0
    · rw [if_pos h] at hgt
      exact hgt ▸ hok hA t htmem
    · rw [if_neg h] at hgt
      exact hgt ▸ hA t htmem
  · intro tid t hget
    by_cases h : tid = tid0
    · subst h
      exact ⟨f t, getThread_mapThread_self f hid hget, hcur t hget⟩
    · exact ⟨t, (getThread_mapThread_ne f hid h).symm ▸ hget, le_refl _⟩

/-- Mapping an id-, invariant- and cursor-preserving function over every thread is a
GoodStep. -/
theorem GoodStep_mapAll (s : SimulationEngine) (g : Thread → Thread)
    (hid : ∀ t, (g t).id = t.id)
    (hok : ∀ t, ThreadOk t → ThreadOk (g t))
    (hcur : ∀ t, t.currentInstruction ≤ (g t).currentInstruction) :
    GoodStep s { s with threads := s.threads.map g } := by
  constructor
  · intro hA t' ht'
    simp only [List.mem_map] at ht'
    obtain ⟨t, htmem, hgt⟩ := ht'
    exact hgt ▸ hok t (hA t htmem)
  · intro tid t hget
    refine ⟨g t, ?_, hcur t⟩
    show List.find? _ (s.threads.map g) = _
    rw [find_id_map g hid tid s.threads]
    unfold SimulationEngine.getThread at hget
    rw [hget]
    rfl

/-- Appending a thread that satisfies the invariant is a GoodStep. -/
theorem GoodStep_append (s : SimulationEngine) (t : Thread) (hok : ThreadOk t) :
    GoodStep s { s with threads := s.threads ++ [t] } := by
  constructor
  · intro hA t' ht'
    rcases List.mem_append.mp ht' with h | h
    · exact hA t' h
    · rw [List.mem_singleton.mp h]
      exact hok
  · intro tid u hget
    exact ⟨u, find_append_left [t] hget, le_refl _⟩

/-- moveToReady is a GoodStep. -/
theorem GoodStep_moveToReady (s : SimulationEngine) (tid : Nat) :
    GoodStep s (s.moveToReady tid) := by
  apply GoodStep_trans
  · exact GoodStep_mapThread s tid (fun t => t.setState TState.ready)
      (fun t _ => id_setState t _)
      (fun hA t ht => ThreadOk_setState t _ (hA t ht))
      (fun t _ => le_refl _)
  · exact GoodStep_of_threads_eq rfl

/-- moveToBlocked is a GoodStep. -/
theorem GoodStep_moveToBlocked (s : SimulationEngine) (tid : Nat) :
    GoodStep s (s.moveToBlocked tid) := by
  have h1 : GoodStep s (s.mapThread tid (fun t => t.setState TState.blocked)) :=
    GoodStep_mapThread s tid (fun t => t.setState TState.blocked)
      (fun t _ => id_setState t _)
      (fun hA t ht => ThreadOk_setState t _ (hA t ht))
      (fun t _ => le_refl _)
  simp only [SimulationEngine.moveToBlocked]
  split
  · exact h1
  · exact GoodStep_trans h1 (GoodStep_of_threads_eq rfl)

/-- moveToTerminated is a GoodStep. -/
theorem GoodStep_moveToTerminated (s : SimulationEngine) (tid : Nat) :
    GoodStep s (s.moveToTerminated tid) := by
  apply GoodStep_trans
  · exact GoodStep_mapThread s tid
      (fun t => { t with state := TState.terminated, timeInCurrentState := 0,
                         completionTime := s.clockTick,
                         turnaroundTime := (s.clockTick : Int) - (t.arrivalTime : Int) })
      (fun t _ => rfl) (fun hA t ht => hA t ht) (fun t _ => le_refl _)
  · exact GoodStep_of_threads_eq rfl

/-- Precomposition with a step that keeps the thread store. -/
theorem GoodStep_via {s s1 s2 : SimulationEngine} (hg : GoodStep s1 s2)
    (h : s1.threads = s.threads) : GoodStep s s2 :=
  GoodStep_trans (GoodStep_of_threads_eq h) hg

/-- releaseCore does not touch the thread store. -/
theorem releaseCore_threads (s : SimulationEngine) (i : Nat) :
    (s.releaseCore i).1.threads = s.threads := by
  unfold SimulationEngine.releaseCore
  split <;> rfl

/-- releaseCoreOf does not touch the thread store. -/
theorem releaseCoreOf_threads (s : SimulationEngine) (tid : Nat) :
    (s.releaseCoreOf tid).threads = s.threads := by
  unfold SimulationEngine.releaseCoreOf
  split
  · exact releaseCore_threads s _
  · rfl

/-- assignThread is a GoodStep. -/
theorem GoodStep_assignThread (s : SimulationEngine) (i tid : Nat) :
    GoodStep s (s.assignThread i tid) := by
  apply GoodStep_trans (GoodStep_of_threads_eq (by rfl))
  exact GoodStep_mapThread _ tid (fun t => t.setState TState.running)
    (fun t _ => id_setState t _)
    (fun hA t ht => ThreadOk_setState t _ (hA t ht))
    (fun t _ => le_refl _)

/-- The release-and-block path taken when an instruction blocks its thread. -/
theorem GoodStep_blockPath (s : SimulationEngine) (tid : Nat) :
    GoodStep s ((s.releaseCoreOf tid).moveToBlocked tid) :=
  GoodStep_trans (GoodStep_of_threads_eq (releaseCoreOf_threads s tid))
    (GoodStep_moveToBlocked _ tid)

/-- The unblock-and-ready path taken when an instruction wakes a thread: moveToReady
applied after any mutation that keeps the thread store. -/
theorem GoodStep_readyPath (s s1 : SimulationEngine) (u : Nat)
    (h : s1.threads = s.threads) : GoodStep s (s1.moveToReady u) :=
  GoodStep_trans (GoodStep_of_threads_eq h) (GoodStep_moveToReady s1 u)

/-- executeInstruction is a GoodStep: every instruction side effect only moves threads
between queues and rewrites their lifecycle state. -/
theorem GoodStep_executeInstruction (s : SimulationEngine) (tid : Nat)
    (ins : Instruction) : GoodStep s (s.executeInstruction tid ins) := by
  cases ins with
  | compute => exact GoodStep_refl s
  | wait r =>
      simp only [SimulationEngine.executeInstruction]
      cases hget : mapGet s.semaphores r with
      | none => exact GoodStep_refl s
      | some sem =>
          dsimp only
          split
          · exact GoodStep_of_threads_eq rfl
          · exact GoodStep_via (GoodStep_blockPath _ tid) rfl
  | signal r =>
      simp only [SimulationEngine.executeInstruction]
      cases hget : mapGet s.semaphores r with
      | none => exact GoodStep_refl s
      | some sem =>
          dsimp only
          split
          · exact GoodStep_of_threads_eq rfl
          · exact GoodStep_readyPath _ _ _ rfl
  | enterMonitor r =>
      simp only [SimulationEngine.executeInstruction]
      cases hget : mapGet s.monitors r with
      | none => exact GoodStep_refl s
      | some m =>
          dsimp only
          split
          · exact GoodStep_of_threads_eq rfl
          · exact GoodStep_via (GoodStep_blockPath _ tid) rfl
  | exitMonitor r =>
      simp only [SimulationEngine.executeInstruction]
      cases hget : mapGet s.monitors r with
      | none => exact GoodStep_refl s
      | some m =>
          dsimp only
          split
          · exact GoodStep_of_threads_eq rfl
          · exact GoodStep_readyPath _ _ _ rfl
  | monitorWait r =>
      simp only [SimulationEngine.executeInstruction]
      cases hget : mapGet s.monitors r with
      | none => exact GoodStep_refl s
      | some m =>
          dsimp only
          have h2 : GoodStep s (if (m.wait tid).2.currentBlocked then
              ((({ s with monitors := mapSet s.monitors r (m.wait tid).1 }
                : SimulationEngine).releaseCoreOf tid).moveToBlocked tid)
            else { s with monitors := mapSet s.monitors r (m.wait tid).1 }) := by
            split
            · exact GoodStep_via (GoodStep_blockPath _ tid) rfl
            · exact GoodStep_of_threads_eq rfl
          split
          · exact h2
          · exact GoodStep_trans h2 (GoodStep_readyPath _ _ _ rfl)
  | monitorSignal r =>
      simp only [SimulationEngine.executeInstruction]
      cases hget : mapGet s.monitors r with
      | none => exact GoodStep_refl s
      | some m =>
          dsimp only
          split
          · exact GoodStep_of_threads_eq rfl
          · exact GoodStep_readyPath _ _ _ rfl

/-- Thread.execute never decreases the cursor. -/
theorem cursor_execute (t : Thread) :
    t.currentInstruction ≤ t.execute.1.currentInstruction := by
  unfold Thread.execute
  split
  · exact Nat.le_succ _
  · exact le_refl _

/-- The composite state reached inside tickCoreStep after the busy-core bump, the
resident thread's execute and the instruction side effects is a GoodStep away from
the starting state. -/
theorem GoodStep_execPhase (s : SimulationEngine) (i tid : Nat) (thread : Thread)
    (hth : ({ s with cpuCores := listModify s.cpuCores i CPUCore.tick }
      : SimulationEngine).getThread tid = some thread) :
    GoodStep s
      (match thread.execute.2 with
       | some ins =>
           (({ s with cpuCores := listModify s.cpuCores i CPUCore.tick }
             : SimulationEngine).mapThread tid
               (fun _ => thread.execute.1)).executeInstruction tid ins
       | none =>
           ({ s with cpuCores := listModify s.cpuCores i CPUCore.tick }
             : SimulationEngine).mapThread tid (fun _ => thread.execute.1)) := by
  have hid : thread.id = tid := getThread_id hth
  have hsa : GoodStep s ({ s with cpuCores := listModify s.cpuCores i CPUCore.tick }
      : SimulationEngine) := GoodStep_of_threads_eq rfl
  have hsb0 : GoodStep ({ s with cpuCores := listModify s.cpuCores i CPUCore.tick }
      : SimulationEngine)
      (({ s with cpuCores := listModify s.cpuCores i CPUCore.tick }
        : SimulationEngine).mapThread tid (fun _ => thread.execute.1)) := by
    apply GoodStep_mapThread
    · intro t ht
      rw [id_execute, hid, ht]
    · intro hA t ht
      exact ThreadOk_execute thread (hA thread (getThread_mem hth))
    · intro t ht
      rw [hth] at ht
      cases ht
      exact cursor_execute thread
  cases he : thread.execute.2 with
  | some ins =>
      exact GoodStep_trans hsa (GoodStep_trans hsb0
        (GoodStep_executeInstruction _ tid ins))
  | none => exact GoodStep_trans hsa hsb0

/-- The per-core body of the tick loop is a GoodStep whenever it does not crash. -/
theorem GoodStep_tickCoreStep {s s' : SimulationEngine} {i : Nat}
    (h : s.tickCoreStep i = some s') : GoodStep s s' := by
  unfold SimulationEngine.tickCoreStep at h
  split at h
  · injection h with h
    subst h
    exact GoodStep_refl s
  · dsimp only at h
    split at h
    · next core heqc tid hidle hcur =>
        split at h
        · injection h with h
          subst h
          exact GoodStep_of_threads_eq rfl
        · next thread hth =>
            have hphase := GoodStep_execPhase s i tid thread hth
            split at h
            · injection h with h
              subst h
              exact hphase
            · next th2 hth2 =>
                split at h
                · injection h with h
                  subst h
                  exact GoodStep_trans hphase
                    (GoodStep_trans (GoodStep_of_threads_eq (releaseCore_threads _ i))
                      (GoodStep_moveToTerminated _ tid))
                · split at h
                  · split at h
                    · exact absurd h (by simp)
                    · next ptid hrel =>
                        injection h with h
                        subst h
                        refine GoodStep_trans hphase (GoodStep_trans
                          (GoodStep_of_threads_eq (releaseCore_threads _ i))
                          (GoodStep_trans ?_ (GoodStep_moveToReady _ ptid)))
                        apply GoodStep_mapThread
                        · intro t ht
                          rfl
                        · intro hA t ht
                          exact hA t ht
                        · intro t ht
                          exact le_refl _
                  · injection h with h
                    subst h
                    exact hphase
    · injection h with h
      subst h
      exact GoodStep_of_threads_eq rfl

/-- A fallible fold of GoodSteps is a GoodStep. -/
theorem GoodStep_foldlM {g : SimulationEngine → β → Option SimulationEngine} :
    ∀ (l : List β) (s s' : SimulationEngine), l.foldlM g s = some s' →
      (∀ s0 b s1, g s0 b = some s1 → GoodStep s0 s1) → GoodStep s s' := by
  intro l
  induction l with
  | nil =>
      intro s s' h hg
      simp only [List.foldlM_nil] at h
      injection h with h
      subst h
      exact GoodStep_refl s
  | cons b rest ih =>
      intro s s' h hg
      rw [List.foldlM_cons] at h
      cases hg0 : g s b with
      | none =>
          rw [hg0] at h
          cases h
      | some s1 =>
          rw [hg0] at h
          exact GoodStep_trans (hg s b s1 hg0) (ih s1 s' h hg)

/-- A pure fold of GoodSteps is a GoodStep. -/
theorem GoodStep_foldl {g : SimulationEngine → β → SimulationEngine}
    (hg : ∀ s0 b, GoodStep s0 (g s0 b)) :
    ∀ (l : List β) (s : SimulationEngine), GoodStep s (l.foldl g s) := by
  intro l
  induction l with
  | nil => intro s; exact GoodStep_refl s
  | cons b rest ih => intro s; exact GoodStep_trans (hg s b) (ih (g s b))

/-- The many-to-one adjustment only rewrites core flags, never the thread store. -/
theorem manyToOneAdjust_threads (s : SimulationEngine) :
    s.manyToOneAdjust.threads = s.threads := by
  have hfold : ∀ (l : List Nat) (s0 : SimulationEngine),
      (l.foldl (fun s1 i => { s1 with cpuCores := listModify s1.cpuCores i SimulationEngine.manyToOneAdjust.setIdleTrue }) s0).threads = s0.threads := by
    intro l
    induction l with
    | nil => intro s0; rfl
    | cons b rest ih => intro s0; exact ih _
  unfold SimulationEngine.manyToOneAdjust
  dsimp only
  split
  · split
    · exact hfold _ s
    · rfl
  · rfl

/-- mapThread with a quantum reset is a GoodStep. -/
theorem GoodStep_quantumZero (s : SimulationEngine) (tid : Nat) :
    GoodStep s (s.mapThread tid (fun t => { t with quantum := 0 })) :=
  GoodStep_mapThread s tid _ (fun t _ => rfl) (fun hA t ht => hA t ht)
    (fun t _ => le_refl _)

/-- mapThread with a setState is a GoodStep. -/
theorem GoodStep_setState (s : SimulationEngine) (tid : Nat) (st : TState) :
    GoodStep s (s.mapThread tid (fun t => t.setState st)) :=
  GoodStep_mapThread s tid _ (fun t _ => id_setState t st)
    (fun hA t ht => ThreadOk_setState t st (hA t ht)) (fun t _ => le_refl _)

/-- mapThread with a kernel-id assignment is a GoodStep. -/
theorem GoodStep_kernelId (s : SimulationEngine) (tid k : Nat) :
    GoodStep s (s.mapThread tid (fun t => { t with kernelThreadId := some k })) :=
  GoodStep_mapThread s tid _ (fun t _ => rfl) (fun hA t ht => hA t ht)
    (fun t _ => le_refl _)

/-- The dispatch body of the tick loop is a GoodStep. -/
theorem GoodStep_dispatchStep (s : SimulationEngine) (i : Nat) :
    GoodStep s (s.dispatchStep i) := by
  unfold SimulationEngine.dispatchStep
  split
  · exact GoodStep_refl s
  · split
    · split
      · exact GoodStep_refl s
      · exact GoodStep_via
          (GoodStep_trans (GoodStep_quantumZero _ _) (GoodStep_assignThread _ i _)) rfl
    · exact GoodStep_refl s

/-- The clock bump and per-thread timer phase at the head of tick is a GoodStep. -/
theorem GoodStep_clockAndTimers (s : SimulationEngine) :
    GoodStep s { s with clockTick := s.clockTick + 1,
                        threads := s.threads.map Thread.tick } := by
  have h := GoodStep_mapAll ({ s with clockTick := s.clockTick + 1 } : SimulationEngine)
    Thread.tick id_tick ThreadOk_tick
    (fun t => by simp only [Thread.tick]; split <;> exact le_refl _)
  exact GoodStep_via h rfl

/-- tick is a GoodStep whenever it does not crash. -/
theorem GoodStep_tick {s s' : SimulationEngine} (h : s.tick = some s') :
    GoodStep s s' := by
  unfold SimulationEngine.tick at h
  dsimp only at h
  split at h
  · cases h
  · next s3 heq =>
      injection h with h
      subst h
      refine GoodStep_trans (GoodStep_clockAndTimers s) (GoodStep_trans
        (GoodStep_foldlM _ _ _ heq (fun s0 b s1 hstep => GoodStep_tickCoreStep hstep))
        (GoodStep_trans (GoodStep_of_threads_eq (manyToOneAdjust_threads s3))
          (GoodStep_foldl (fun s0 b => GoodStep_dispatchStep s0 b) _ _)))

/-- Appending a thread that satisfies the invariant, together with any non-thread
field changes, is a GoodStep. -/
theorem GoodStep_of_threads_append {s s' : SimulationEngine} (t : Thread)
    (hok : ThreadOk t) (h : s'.threads = s.threads ++ [t]) : GoodStep s s' := by
  constructor
  · intro hA t' ht'
    rw [h] at ht'
    rcases List.mem_append.mp ht' with hm | hm
    · exact hA t' hm
    · rw [List.mem_singleton.mp hm]
      exact hok
  · intro tid u hget
    refine ⟨u, ?_, le_refl _⟩
    show List.find? _ s'.threads = _
    rw [h]
    exact find_append_left [t] hget

/-- mapThreadToKernel is a GoodStep. -/
theorem GoodStep_mapThreadToKernel (s : SimulationEngine) (tid : Nat) :
    GoodStep s (s.mapThreadToKernel tid) := by
  unfold SimulationEngine.mapThreadToKernel
  split
  · exact GoodStep_via (GoodStep_kernelId _ tid _) rfl
  · split
    · exact GoodStep_via (GoodStep_kernelId _ tid 1) (by split <;> rfl)
    · split
      · exact GoodStep_via (GoodStep_kernelId _ tid _) (by split <;> rfl)
      · exact GoodStep_refl s

/-- addThread is a GoodStep. -/
theorem GoodStep_addThread (s : SimulationEngine) (nm : String) (p : Int)
    (ins : List Instruction) : GoodStep s (s.addThread nm p ins) := by
  unfold SimulationEngine.addThread
  dsimp only
  refine GoodStep_trans (GoodStep_of_threads_append _ ?_ rfl)
    (GoodStep_trans (GoodStep_mapThreadToKernel _ _) (GoodStep_setState _ _ _))
  exact ThreadOk_mk s.nextId nm p ins

/-- The wall-clock admission callback is a GoodStep. -/
theorem GoodStep_admitTimer (s : SimulationEngine) (tid : Nat) :
    GoodStep s (s.admitTimer tid) := by
  unfold SimulationEngine.admitTimer
  split
  · split
    · exact GoodStep_moveToReady s tid
    · exact GoodStep_refl s
  · exact GoodStep_refl s

/-- Every engine event that completes is a GoodStep. -/
theorem GoodStep_applyOp {s s' : SimulationEngine} {op : EngineOp}
    (h : applyOp s op = some s') : GoodStep s s' := by
  cases op with
  | addThread n p ins =>
      injection h with h
      subst h
      exact GoodStep_addThread s n p ins
  | addSemaphore n v =>
      injection h with h
      subst h
      exact GoodStep_of_threads_eq rfl
  | addMonitor n =>
      injection h with h
      subst h
      exact GoodStep_of_threads_eq rfl
  | admitTimer tid =>
      injection h with h
      subst h
      exact GoodStep_admitTimer s tid
  | tick => exact GoodStep_tick h

/-- Every completed event sequence is a GoodStep. -/
theorem GoodStep_runOps {ops : List EngineOp} :
    ∀ {s s' : SimulationEngine}, runOps s ops = some s' → GoodStep s s' := by
  intro s s' h
  exact GoodStep_foldlM ops s s' h (fun s0 b s1 hstep => GoodStep_applyOp hstep)

/-- A fresh engine has no threads, so the accounting invariant holds vacuously. -/
theorem AllOk_setup (n : Nat) (a : String) (q : Int) (m : String) :
    AllOk (SimulationEngine.setup n a q m) := by
  intro t ht
  simp [SimulationEngine.setup] at ht

/-- Claim C9: every thread satisfies remainingTime + cursor = burstTime at
construction and in every state reachable from a fresh engine by any event
sequence (in particular after every tick), and no engine event ever decreases a
thread's execution cursor. -/
theorem c9_thread_accounting_invariant (n : Nat) (a : String) (q : Int) (m : String)
    (ops : List EngineOp) (s : SimulationEngine)
    (hrun : runOps (SimulationEngine.setup n a q m) ops = some s) :
    (∀ id nm p ins, ThreadOk (mkThread id nm p ins))
    ∧ AllOk s
    ∧ (∀ s' op, applyOp s op = some s' → AllOk s' ∧ CursorLe s s') := by
  have hgs : GoodStep (SimulationEngine.setup n a q m) s := GoodStep_runOps hrun
  have hok : AllOk s := hgs.1 (AllOk_setup n a q m)
  refine ⟨fun id nm p ins => ThreadOk_mk id nm p ins, hok, ?_⟩
  intro s' op h
  have hstep := GoodStep_applyOp h
  exact ⟨hstep.1 hok, hstep.2⟩

/-- Witness for C9 at a concrete input: a one-core FCFS engine that admitted,
readied and ran a one-instruction thread satisfies the accounting invariant. -/
theorem c9_witness :
    AllOk ((runOps (SimulationEngine.setup 1 "fcfs" 3 "one-to-one")
      [EngineOp.addThread "A" 5 [Instruction.compute], EngineOp.admitTimer 1,
       EngineOp.tick]).getD (SimulationEngine.setup 1 "fcfs" 3 "one-to-one")) :=
  (c9_thread_accounting_invariant 1 "fcfs" 3 "one-to-one"
    [EngineOp.addThread "A" 5 [Instruction.compute], EngineOp.admitTimer 1,
     EngineOp.tick] _ (by rfl)).2.1

/-- KeepsCQ is reflexive. -/
theorem KeepsCQ_refl (s : SimulationEngine) : KeepsCQ s s :=
  fun tid t h => ⟨t, h, rfl, rfl, rfl⟩

/-- KeepsCQ composes. -/
theorem KeepsCQ_trans {s1 s2 s3 : SimulationEngine}
    (h1 : KeepsCQ s1 s2) (h2 : KeepsCQ s2 s3) : KeepsCQ s1 s3 := by
  intro tid t hget
  obtain ⟨u, hu, hc, hq, hi⟩ := h1 tid t hget
  obtain ⟨v, hv, hc2, hq2, hi2⟩ := h2 tid u hu
  exact ⟨v, hv, hc2.trans hc, hq2.trans hq, hi2.trans hi⟩

/-- A step that keeps the thread store keeps the execution counters. -/
theorem KeepsCQ_of_threads_eq {s sx : SimulationEngine}
    (h : sx.threads = s.threads) : KeepsCQ s sx := by
  intro tid t hget
  exact ⟨t, (getThread_of_threads_eq h tid).symm ▸ hget, rfl, rfl, rfl⟩

/-- mapThread with an update that keeps id, cursor, quantum counter and instruction
list keeps the execution counters. -/
theorem KeepsCQ_mapThread (s : SimulationEngine) (tid0 : Nat) (f : Thread → Thread)
    (hid : ∀ t, t.id = tid0 → (f t).id = t.id)
    (hkeep : ∀ t, (f t).currentInstruction = t.currentInstruction
      ∧ (f t).quantum = t.quantum ∧ (f t).instructions = t.instructions) :
    KeepsCQ s (s.mapThread tid0 f) := by
  intro tid t hget
  by_cases h : tid = tid0
  · subst h
    exact ⟨f t, getThread_mapThread_self f hid hget,
      (hkeep t).1, (hkeep t).2.1, (hkeep t).2.2⟩
  · exact ⟨t, (getThread_mapThread_ne f hid h).symm ▸ hget, rfl, rfl, rfl⟩

/-- moveToReady keeps the execution counters. -/
theorem KeepsCQ_moveToReady (s : SimulationEngine) (tid : Nat) :
    KeepsCQ s (s.moveToReady tid) :=
  KeepsCQ_trans
    (KeepsCQ_mapThread s tid _ (fun t _ => id_setState t _) (fun t => ⟨rfl, rfl, rfl⟩))
    (KeepsCQ_of_threads_eq rfl)

/-- moveToBlocked keeps the execution counters. -/
theorem KeepsCQ_moveToBlocked (s : SimulationEngine) (tid : Nat) :
    KeepsCQ s (s.moveToBlocked tid) := by
  have h1 : KeepsCQ s (s.mapThread tid (fun t => t.setState TState.blocked)) :=
    KeepsCQ_mapThread s tid _ (fun t _ => id_setState t _) (fun t => ⟨rfl, rfl, rfl⟩)
  simp only [SimulationEngine.moveToBlocked]
  split
  · exact h1
  · exact KeepsCQ_trans h1 (KeepsCQ_of_threads_eq rfl)

/-- Precomposition of KeepsCQ with a step that keeps the thread store. -/
theorem KeepsCQ_via {s s1 s2 : SimulationEngine} (hg : KeepsCQ s1 s2)
    (h : s1.threads = s.threads) : KeepsCQ s s2 :=
  KeepsCQ_trans (KeepsCQ_of_threads_eq h) hg

/-- The release-and-block path keeps the execution counters. -/
theorem KeepsCQ_blockPath (s : SimulationEngine) (tid : Nat) :
    KeepsCQ s ((s.releaseCoreOf tid).moveToBlocked tid) :=
  KeepsCQ_trans (KeepsCQ_of_threads_eq (releaseCoreOf_threads s tid))
    (KeepsCQ_moveToBlocked _ tid)

/-- The unblock-and-ready path keeps the execution counters. -/
theorem KeepsCQ_readyPath (s s1 : SimulationEngine) (u : Nat)
    (h : s1.threads = s.threads) : KeepsCQ s (s1.moveToReady u) :=
  KeepsCQ_trans (KeepsCQ_of_threads_eq h) (KeepsCQ_moveToReady s1 u)

/-- executeInstruction keeps the cursor, quantum counter and instruction list of
every thread: instruction side effects only rewrite lifecycle states and queues. -/
theorem KeepsCQ_executeInstruction (s : SimulationEngine) (tid : Nat)
    (ins : Instruction) : KeepsCQ s (s.executeInstruction tid ins) := by
  cases ins with
  | compute => exact KeepsCQ_refl s
  | wait r =>
      simp only [SimulationEngine.executeInstruction]
      cases hget : mapGet s.semaphores r with
      | none => exact KeepsCQ_refl s
      | some sem =>
          dsimp only
          split
          · exact KeepsCQ_of_threads_eq rfl
          · exact KeepsCQ_via (KeepsCQ_blockPath _ tid) rfl
  | signal r =>
      simp only [SimulationEngine.executeInstruction]
      cases hget : mapGet s.semaphores r with
      | none => exact KeepsCQ_refl s
      | some sem =>
          dsimp only
          split
          · exact KeepsCQ_of_threads_eq rfl
          · exact KeepsCQ_readyPath _ _ _ rfl
  | enterMonitor r =>
      simp only [SimulationEngine.executeInstruction]
      cases hget : mapGet s.monitors r with
      | none => exact KeepsCQ_refl s
      | some m =>
          dsimp only
          split
          · exact KeepsCQ_of_threads_eq rfl
          · exact KeepsCQ_via (KeepsCQ_blockPath _ tid) rfl
  | exitMonitor r =>
      simp only [SimulationEngine.executeInstruction]
      cases hget : mapGet s.monitors r with
      | none => exact KeepsCQ_refl s
      | some m =>
          dsimp only
          split
          · exact KeepsCQ_of_threads_eq rfl
          · exact KeepsCQ_readyPath _ _ _ rfl
  | monitorWait r =>
      simp only [SimulationEngine.executeInstruction]
      cases hget : mapGet s.monitors r with
      | none => exact KeepsCQ_refl s
      | some m =>
          dsimp only
          have h2 : KeepsCQ s (if (m.wait tid).2.currentBlocked then
              ((({ s with monitors := mapSet s.monitors r (m.wait tid).1 }
                : SimulationEngine).releaseCoreOf tid).moveToBlocked tid)
            else { s with monitors := mapSet s.monitors r (m.wait tid).1 }) := by
            split
            · exact KeepsCQ_via (KeepsCQ_blockPath _ tid) rfl
            · exact KeepsCQ_of_threads_eq rfl
          split
          · exact h2
          · exact KeepsCQ_trans h2 (KeepsCQ_readyPath _ _ _ rfl)
  | monitorSignal r =>
      simp only [SimulationEngine.executeInstruction]
      cases hget : mapGet s.monitors r with
      | none => exact KeepsCQ_refl s
      | some m =>
          dsimp only
          split
          · exact KeepsCQ_of_threads_eq rfl
          · exact KeepsCQ_readyPath _ _ _ rfl

/-- releaseCore never changes the scheduler configuration. -/
theorem scheduler_releaseCore (s : SimulationEngine) (i : Nat) :
    (s.releaseCore i).1.scheduler = s.scheduler := by
  unfold SimulationEngine.releaseCore
  split <;> rfl

/-- releaseCoreOf never changes the scheduler configuration. -/
theorem scheduler_releaseCoreOf (s : SimulationEngine) (tid : Nat) :
    (s.releaseCoreOf tid).scheduler = s.scheduler := by
  unfold SimulationEngine.releaseCoreOf
  split
  · exact scheduler_releaseCore _ _
  · rfl

/-- moveToBlocked never changes the scheduler configuration. -/
theorem scheduler_moveToBlocked (s : SimulationEngine) (tid : Nat) :
    (s.moveToBlocked tid).scheduler = s.scheduler := by
  simp only [SimulationEngine.moveToBlocked]
  split <;> rfl

/-- moveToReady never changes the scheduler configuration. -/
theorem scheduler_moveToReady (s : SimulationEngine) (tid : Nat) :
    (s.moveToReady tid).scheduler = s.scheduler := rfl

/-- executeInstruction never changes the scheduler configuration. -/
theorem scheduler_executeInstruction (s : SimulationEngine) (tid : Nat)
    (ins : Instruction) : (s.executeInstruction tid ins).scheduler = s.scheduler := by
  cases ins <;> (unfold SimulationEngine.executeInstruction; dsimp only) <;>
    (repeat' split) <;>
    first
      | rfl
      | (simp only [scheduler_moveToReady, scheduler_moveToBlocked,
            scheduler_releaseCoreOf])

/-- When execute returns an instruction, the cursor and quantum counter advanced by
one and the id and instruction list are unchanged. -/
theorem execute_of_some {t t1 : Thread} {ins : Instruction}
    (h : t.execute = (t1, some ins)) :
    t1.currentInstruction = t.currentInstruction + 1 ∧ t1.quantum = t.quantum + 1
    ∧ t1.instructions = t.instructions ∧ t1.id = t.id := by
  unfold Thread.execute at h
  split at h
  · injection h with ha hb
    subst ha
    exact ⟨rfl, rfl, rfl, rfl⟩
  · injection h with ha hb
    exact Option.noConfusion hb

/-- Claim C4: in the per-core body of tick, a running thread that neither completes
nor blocks is preempted exactly when, under round-robin, its quantum counter (just
incremented by execute) has reached the configured quantum — on the tick where it
first reaches it, never earlier — with the core released, the quantum counter
reset to 0 and the thread pushed to the tail of the ready queue; under any other
algorithm (fcfs, priority) it is never preempted. -/
theorem c4_roundRobin_preemption_exact
    (s sA sB : SimulationEngine) (i tid : Nat) (core : CPUCore)
    (t t1 : Thread) (ins : Instruction)
    (h1 : s.cpuCores[i]? = some core)
    (h2 : core.isIdle = false)
    (h3 : core.currentThread = some tid)
    (hA : sA = { s with cpuCores := listModify s.cpuCores i CPUCore.tick })
    (h4 : sA.getThread tid = some t)
    (h5 : t.execute = (t1, some ins))
    (hB : sB = (sA.mapThread tid (fun _ => t1)).executeInstruction tid ins)
    (h6 : t1.isComplete = false)
    (h7 : (sB.releaseCore i).2 = some tid) :
    ∃ t2, sB.getThread tid = some t2
      ∧ t2.quantum = t.quantum + 1
      ∧ (sB.scheduler.shouldPreempt t2 = true ↔
          (s.scheduler.algorithm = "round-robin"
            ∧ s.scheduler.timeQuantum ≤ (t.quantum : Int) + 1))
      ∧ (s.scheduler.algorithm = "round-robin" →
          (t.quantum : Int) < s.scheduler.timeQuantum →
          (sB.scheduler.shouldPreempt t2 = true ↔
            (t.quantum : Int) + 1 = s.scheduler.timeQuantum))
      ∧ (sB.scheduler.shouldPreempt t2 = true →
          s.tickCoreStep i = some
            (((sB.releaseCore i).1.mapThread tid
              (fun u => { u with quantum := 0 })).moveToReady tid)
          ∧ (((sB.releaseCore i).1.mapThread tid
              (fun u => { u with quantum := 0 })).moveToReady tid).readyQueue
            = (sB.releaseCore i).1.readyQueue ++ [tid])
      ∧ (sB.scheduler.shouldPreempt t2 = false → s.tickCoreStep i = some sB) := by
  subst hA
  subst hB
  have hobtain := execute_of_some h5
  have htid : t.id = tid := getThread_id h4
  have hmapped := getThread_mapThread_self (fun _ => t1)
    (fun u hu => by rw [hobtain.2.2.2, htid, hu]) h4
  obtain ⟨t2, hget2, hc2, hq2, hi2⟩ :=
    KeepsCQ_executeInstruction _ tid ins tid t1 hmapped
  have hq21 : t2.quantum = t.quantum + 1 := by rw [hq2, hobtain.2.1]
  have hcomp2 : t2.isComplete = false := by
    unfold Thread.isComplete at h6 ⊢
    rw [hc2, hi2]
    exact h6
  have hsch := scheduler_executeInstruction
    (({ s with cpuCores := listModify s.cpuCores i CPUCore.tick }
      : SimulationEngine).mapThread tid (fun _ => t1)) tid ins
  have hsch2 : ((({ s with cpuCores := listModify s.cpuCores i CPUCore.tick }
      : SimulationEngine).mapThread tid (fun _ => t1)).executeInstruction tid
      ins).scheduler = s.scheduler := hsch
  have hiff : ((({ s with cpuCores := listModify s.cpuCores i CPUCore.tick }
      : SimulationEngine).mapThread tid (fun _ => t1)).executeInstruction tid
      ins).scheduler.shouldPreempt t2 = true ↔
      (s.scheduler.algorithm = "round-robin"
        ∧ s.scheduler.timeQuantum ≤ (t.quantum : Int) + 1) := by
    unfold Scheduler.shouldPreempt
    rw [hsch2]
    by_cases halg : s.scheduler.algorithm = "round-robin"
    · rw [if_pos halg, hq21]
      constructor
      · intro hd
        refine ⟨halg, ?_⟩
        have hle := of_decide_eq_true hd
        push_cast at hle
        omega
      · intro hand
        apply decide_eq_true
        push_cast
        omega
    · rw [if_neg halg]
      simp [halg]
  have hstep : s.tickCoreStep i =
      (if ((({ s with cpuCores := listModify s.cpuCores i CPUCore.tick }
          : SimulationEngine).mapThread tid (fun _ => t1)).executeInstruction tid
          ins).scheduler.shouldPreempt t2 then
        some ((((((({ s with cpuCores := listModify s.cpuCores i CPUCore.tick }
          : SimulationEngine).mapThread tid (fun _ => t1)).executeInstruction tid
          ins).releaseCore i).1).mapThread tid
            (fun u => { u with quantum := 0 })).moveToReady tid)
      else some ((({ s with cpuCores := listModify s.cpuCores i CPUCore.tick }
          : SimulationEngine).mapThread tid (fun _ => t1)).executeInstruction tid
          ins)) := by
    unfold SimulationEngine.tickCoreStep
    rw [h1]
    dsimp only
    rw [h2, h3]
    dsimp only
    rw [h4]
    dsimp only
    rw [h5]
    dsimp only
    rw [hget2]
    dsimp only
    rw [hcomp2]
    simp only [Option.isNone_some, Bool.false_or]
    rw [if_neg Bool.false_ne_true]
    split
    · next hp =>
        rw [h7]
    · next hp =>
        rfl
  refine ⟨t2, hget2, hq21, hiff, ?_, ?_, ?_⟩
  · intro halg hlt
    rw [hiff]
    constructor
    · intro hand
      omega
    · intro he
      exact ⟨halg, by omega⟩
  · intro hp
    rw [hstep, if_pos hp]
    exact ⟨rfl, rfl⟩
  · intro hp
    rw [hstep, if_neg ?_]
    rw [hp]
    exact Bool.false_ne_true

/-- Witness for C4 at a concrete input: on the fixture engine, thread 1 finishes its
quantum (counter 1 → 2 = quantum) and is preempted by the core step. -/
theorem c4_witness :
    ∃ t2, rrStateB.getThread 1 = some t2
      ∧ t2.quantum = rrThread.quantum + 1
      ∧ (rrStateB.scheduler.shouldPreempt t2 = true ↔
          (rrState.scheduler.algorithm = "round-robin"
            ∧ rrState.scheduler.timeQuantum ≤ (rrThread.quantum : Int) + 1))
      ∧ (rrState.scheduler.algorithm = "round-robin" →
          (rrThread.quantum : Int) < rrState.scheduler.timeQuantum →
          (rrStateB.scheduler.shouldPreempt t2 = true ↔
            (rrThread.quantum : Int) + 1 = rrState.scheduler.timeQuantum))
      ∧ (rrStateB.scheduler.shouldPreempt t2 = true →
          rrState.tickCoreStep 0 = some
            (((rrStateB.releaseCore 0).1.mapThread 1
              (fun u => { u with quantum := 0 })).moveToReady 1)
          ∧ (((rrStateB.releaseCore 0).1.mapThread 1
              (fun u => { u with quantum := 0 })).moveToReady 1).readyQueue
            = (rrStateB.releaseCore 0).1.readyQueue ++ [1])
      ∧ (rrStateB.scheduler.shouldPreempt t2 = false →
          rrState.tickCoreStep 0 = some rrStateB) :=
  c4_roundRobin_preemption_exact rrState rrStateA rrStateB 0 1
    { id := 0, currentThread := some 1, isIdle := false, totalBusyTime := 0 }
    rrThread rrThread.execute.1 Instruction.compute
    rfl rfl rfl rfl rfl rfl rfl rfl rfl

/-- Map.set followed by Map.get at the same key yields the new value. -/
theorem mapGet_mapSet (m : List (String × α)) (k : String) (v : α) :
    mapGet (mapSet m k v) k = some v := by
  induction m with
  | nil =>
      simp [mapSet, mapGet, List.find?]
  | cons p rest ih =>
      by_cases h : p.1 = k
      · unfold mapSet
        rw [if_pos h]
        unfold mapGet
        rw [List.find?_cons_of_pos _ (by simp)]
      · unfold mapSet
        rw [if_neg h]
        unfold mapGet
        rw [List.find?_cons_of_neg _ (by simpa using h)]
        exact ih

/-- A thread dequeued by Semaphore.signal comes from the wait queue. -/
theorem signal_mem {sem : Semaphore} {u : Nat} (h : sem.signal.2 = some u) :
    u ∈ sem.waitQueue := by
  unfold Semaphore.signal at h
  dsimp only at h
  split at h
  · exact Option.noConfusion h
  · next v rest heq =>
      injection h with h
      subst h
      rw [heq]
      exact List.mem_cons_self _ _

/-- The next owner produced by Monitor.exit comes from one of the two queues. -/
theorem exit_mem {m : Monitor} {u : Nat} (h : m.exit.2.nextThread = some u) :
    u ∈ m.conditionQueue ∨ u ∈ m.entryQueue := by
  unfold Monitor.exit at h
  dsimp only at h
  split at h
  · next v rest heq =>
      injection h with h
      subst h
      left
      rw [heq]
      exact List.mem_cons_self _ _
  · next heq =>
      split at h
      · next v rest heq2 =>
          injection h with h
          subst h
          right
          rw [heq2]
          exact List.mem_cons_self _ _
      · exact Option.noConfusion h

/-- The next owner produced by Monitor.wait comes from the entry queue. -/
theorem mwait_mem {m : Monitor} {a u : Nat} (h : (m.wait a).2.nextThread = some u) :
    u ∈ m.entryQueue := by
  unfold Monitor.wait at h
  split at h
  · dsimp only at h
    split at h
    · next v rest heq =>
        injection h with h
        subst h
        rw [heq]
        exact List.mem_cons_self _ _
    · exact Option.noConfusion h
  · exact Option.noConfusion h

/-- A thread dequeued by Monitor.signal comes from the condition queue. -/
theorem msignal_mem {m : Monitor} {u : Nat} (h : m.signal.2 = some u) :
    u ∈ m.conditionQueue := by
  unfold Monitor.signal at h
  split at h
  · next v rest heq =>
      injection h with h
      subst h
      rw [heq]
      exact List.mem_cons_self _ _
  · exact Option.noConfusion h

/-- moveToReady of a different thread leaves a thread's record unchanged. -/
theorem getThread_moveToReady_ne {s : SimulationEngine} {u tid : Nat} (h : u ≠ tid) :
    (s.moveToReady u).getThread tid = s.getThread tid := by
  have h1 : (s.moveToReady u).threads
      = (s.mapThread u (fun t => t.setState TState.ready)).threads := rfl
  rw [getThread_of_threads_eq h1]
  exact getThread_mapThread_ne _ (fun t _ => id_setState t _) (Ne.symm h)

/-- The release-and-block path of a different thread leaves a thread's record
unchanged. -/
theorem getThread_blockPath_ne {s : SimulationEngine} {a tid : Nat} (h : a ≠ tid) :
    (((s.releaseCoreOf a).moveToBlocked a)).getThread tid = s.getThread tid := by
  have h2 : ∀ sx : SimulationEngine, (sx.moveToBlocked a).getThread tid
      = sx.getThread tid := by
    intro sx
    have hth : (sx.moveToBlocked a).threads
        = (sx.mapThread a (fun t => t.setState TState.blocked)).threads := by
      simp only [SimulationEngine.moveToBlocked]
      split <;> rfl
    rw [getThread_of_threads_eq hth]
    exact getThread_mapThread_ne _ (fun t _ => id_setState t _) (Ne.symm h)
  rw [h2, getThread_of_threads_eq (releaseCoreOf_threads s a)]

/-- Rewriting the blocked queue leaves every thread record unchanged. -/
theorem getThread_set_blockedQueue (sx : SimulationEngine) (q : List Nat)
    (tid : Nat) :
    ({ sx with blockedQueue := q } : SimulationEngine).getThread tid
      = sx.getThread tid := rfl

/-- Claim C10: addSemaphore (resp. addMonitor) with an already-registered name
silently replaces the existing primitive with a fresh one and leaves every thread
record — in particular every BLOCKED thread of the old wait/entry/condition
queues — untouched; and no later instruction naming that resource ever changes
the record of a thread that is not in the current primitive's queues (right after
replacement those queues are empty, and a BLOCKED thread never runs, so it can
never re-enter them): such a thread stays BLOCKED forever. -/
theorem c10_replaced_primitive_orphans
    (s : SimulationEngine) (nm r : String) (v : Int) (oldSem : Semaphore)
    (oldMon : Monitor) (a tid : Nat) (sem : Semaphore) (m : Monitor)
    (hold : mapGet s.semaphores nm = some oldSem)
    (holdm : mapGet s.monitors nm = some oldMon)
    (hne : a ≠ tid) :
    (mapGet (s.addSemaphore nm v).semaphores nm
        = some { name := nm, value := v, waitQueue := [] }
      ∧ (s.addSemaphore nm v).threads = s.threads
      ∧ mapGet (s.addMonitor nm).monitors nm
        = some { name := nm, owner := none, entryQueue := [], conditionQueue := [] }
      ∧ (s.addMonitor nm).threads = s.threads)
    ∧ (mapGet s.semaphores r = some sem → tid ∉ sem.waitQueue →
        (s.executeInstruction a (.wait r)).getThread tid = s.getThread tid
        ∧ (s.executeInstruction a (.signal r)).getThread tid = s.getThread tid)
    ∧ (mapGet s.monitors r = some m → tid ∉ m.entryQueue →
        tid ∉ m.conditionQueue →
        (s.executeInstruction a (.enterMonitor r)).getThread tid = s.getThread tid
        ∧ (s.executeInstruction a (.exitMonitor r)).getThread tid = s.getThread tid
        ∧ (s.executeInstruction a (.monitorWait r)).getThread tid = s.getThread tid
        ∧ (s.executeInstruction a (.monitorSignal r)).getThread tid
          = s.getThread tid) := by
  refine ⟨⟨mapGet_mapSet _ nm _, rfl, mapGet_mapSet _ nm _, rfl⟩, ?_, ?_⟩
  · intro hsem hnq
    constructor
    · simp only [SimulationEngine.executeInstruction]
      rw [hsem]
      dsimp only
      split
      · rfl
      · exact getThread_blockPath_ne hne
    · simp only [SimulationEngine.executeInstruction]
      rw [hsem]
      dsimp only
      cases hsig : sem.signal.2 with
      | none => rfl
      | some u =>
          have hun : u ≠ tid := fun he => hnq (he ▸ signal_mem hsig)
          rw [getThread_moveToReady_ne hun]
          rfl
  · intro hmon hne1 hnc
    refine ⟨?_, ?_, ?_, ?_⟩
    · simp only [SimulationEngine.executeInstruction]
      rw [hmon]
      dsimp only
      split
      · rfl
      · exact getThread_blockPath_ne hne
    · simp only [SimulationEngine.executeInstruction]
      rw [hmon]
      dsimp only
      cases hnt : m.exit.2.nextThread with
      | none => rfl
      | some u =>
          have hun : u ≠ tid := by
            intro he
            rcases exit_mem hnt with hmem | hmem
            · exact hnc (he ▸ hmem)
            · exact hne1 (he ▸ hmem)
          rw [getThread_moveToReady_ne hun]
          rfl
    · simp only [SimulationEngine.executeInstruction]
      rw [hmon]
      dsimp only
      cases hnt : (m.wait a).2.nextThread with
      | none =>
          by_cases hcb : (m.wait a).2.currentBlocked = true
          · rw [if_pos hcb]
            exact getThread_blockPath_ne hne
          · rw [if_neg hcb]
            rfl
      | some u =>
          have hun : u ≠ tid := fun he => hne1 (he ▸ mwait_mem hnt)
          by_cases hcb : (m.wait a).2.currentBlocked = true
          · rw [if_pos hcb, getThread_moveToReady_ne hun, getThread_set_blockedQueue]
            exact getThread_blockPath_ne hne
          · rw [if_neg hcb, getThread_moveToReady_ne hun]
            rfl
    · simp only [SimulationEngine.executeInstruction]
      rw [hmon]
      dsimp only
      cases hnt : m.signal.2 with
      | none => rfl
      | some u =>
          have hun : u ≠ tid := fun he => hnc (he ▸ msignal_mem hnt)
          rw [getThread_moveToReady_ne hun]
          rfl

/-- Witness for C10 at a concrete input: re-registering semaphore x replaces it with
a fresh one, and a signal on x by thread 1 leaves thread 2's record unchanged. -/
theorem c10_witness :
    mapGet ((((SimulationEngine.setup 1 "fcfs" 3 "one-to-one").addSemaphore "x"
        0).addMonitor "x").addSemaphore "x" 1).semaphores "x"
      = some { name := "x", value := 1, waitQueue := [] }
    ∧ ((((SimulationEngine.setup 1 "fcfs" 3 "one-to-one").addSemaphore "x"
        0).addMonitor "x").executeInstruction 1 (.signal "x")).getThread 2
      = (((SimulationEngine.setup 1 "fcfs" 3 "one-to-one").addSemaphore "x"
        0).addMonitor "x").getThread 2 := by
  have h := c10_replaced_primitive_orphans
    (((SimulationEngine.setup 1 "fcfs" 3 "one-to-one").addSemaphore "x"
      0).addMonitor "x") "x" "x" 1 { name := "x", value := 0, waitQueue := [] }
    { name := "x", owner := none, entryQueue := [], conditionQueue := [] } 1 2
    { name := "x", value := 0, waitQueue := [] }
    { name := "x", owner := none, entryQueue := [], conditionQueue := [] }
    rfl rfl (by decide)
  exact ⟨h.1.1, (h.2.1 rfl (by decide)).2⟩
